import Mathlib

/-!
Verification of the tektoncd-pruner retention engine against its
natural-language specification.

The Go sources are embedded shallowly:

* Go `map[string]T` values are modelled as association lists
  `List (String × T)` (Go map keys are unique; reads use first-match lookup,
  a read on a `nil` map behaves like a read on an empty list).
* Go `*int32` / `*EnforcedConfigLevel` option pointers become `Option Int` /
  `Option EnforcedConfigLevel`.  The claims under study never exercise 32-bit
  overflow, so the numeric payload is an unbounded `Int`.
* Go `time.Time` instants are modelled as `Int`; the distinguished zero
  `time.Time` (`IsZero`) is the integer `0`, and `t.After(u)` is `u < t`.
* Fallible Go functions return `Except`/`Option`, and external effects
  (Kubernetes API calls, YAML parsing, RFC3339 parsing) are supplied as
  explicit function parameters so that the control flow of the embedded
  code stays exactly the Go control flow.
-/

namespace TektonPruner

/-! ## Data model (`pkg/config/config.go`) -/

/-- Go `PrunerResourceType` — the resource kinds the pruner manages. -/
inductive PrunerResourceType where
  | pipelineRun
  | taskRun
deriving DecidableEq

/-- Go `PrunerFieldType` — the configuration fields resolved by the store
(the three field constants the lookup functions switch on). -/
inductive PrunerFieldType where
  | ttlSecondsAfterFinished
  | successfulHistoryLimit
  | failedHistoryLimit
deriving DecidableEq

/-- Go `EnforcedConfigLevel` — the override-cap levels; `resourceLevel` stands
for the Go string constant `"resource"`, `namespaceLevel` for `"namespace"`,
`globalLevel` for `"global"`. -/
inductive EnforcedConfigLevel where
  | globalLevel
  | namespaceLevel
  | resourceLevel
deriving DecidableEq

/-- Go `ResourceSpec` — config of a specific named resource. -/
structure ResourceSpec where
  name : String
  enforcedConfigLevel : Option EnforcedConfigLevel := none
  ttlSecondsAfterFinished : Option Int := none
  successfulHistoryLimit : Option Int := none
  failedHistoryLimit : Option Int := none
  historyLimit : Option Int := none
deriving DecidableEq

/-- Go `PrunerResourceSpec` — config of a specific namespace. -/
structure PrunerResourceSpec where
  enforcedConfigLevel : Option EnforcedConfigLevel := none
  ttlSecondsAfterFinished : Option Int := none
  successfulHistoryLimit : Option Int := none
  failedHistoryLimit : Option Int := none
  historyLimit : Option Int := none
  pipelineRuns : List ResourceSpec := []
  taskRuns : List ResourceSpec := []
deriving DecidableEq

/-- Go `PrunerConfig` — the global config document: root defaults plus the
per-namespace map. -/
structure PrunerConfig where
  enforcedConfigLevel : Option EnforcedConfigLevel := none
  ttlSecondsAfterFinished : Option Int := none
  successfulHistoryLimit : Option Int := none
  failedHistoryLimit : Option Int := none
  historyLimit : Option Int := none
  namespaces : List (String × PrunerResourceSpec) := []
deriving DecidableEq

/-- The field selector switch of `ResourceSpec` values
(`switch fieldType { case PrunerFieldTypeTTLSecondsAfterFinished: ... }`). -/
def ResourceSpec.fieldValue (rs : ResourceSpec) : PrunerFieldType → Option Int
  | .ttlSecondsAfterFinished => rs.ttlSecondsAfterFinished
  | .successfulHistoryLimit => rs.successfulHistoryLimit
  | .failedHistoryLimit => rs.failedHistoryLimit

/-- The field selector switch of `PrunerResourceSpec` (namespace root) values. -/
def PrunerResourceSpec.fieldValue (spec : PrunerResourceSpec) : PrunerFieldType → Option Int
  | .ttlSecondsAfterFinished => spec.ttlSecondsAfterFinished
  | .successfulHistoryLimit => spec.successfulHistoryLimit
  | .failedHistoryLimit => spec.failedHistoryLimit

/-- The field selector switch of the global root (`PrunerConfig`) values. -/
def PrunerConfig.fieldValue (c : PrunerConfig) : PrunerFieldType → Option Int
  | .ttlSecondsAfterFinished => c.ttlSecondsAfterFinished
  | .successfulHistoryLimit => c.successfulHistoryLimit
  | .failedHistoryLimit => c.failedHistoryLimit

/-- The resource list selector switch
(`switch resourceType { case PrunerResourceTypePipelineRun: ... }`). -/
def PrunerResourceSpec.resourceSpecs (spec : PrunerResourceSpec) : PrunerResourceType → List ResourceSpec
  | .pipelineRun => spec.pipelineRuns
  | .taskRun => spec.taskRuns

/-- Go `getFromPrunerConfigResourceLevel` — look up the field of the named
resource inside the spec of `ns` in a namespaces map.  The Go loop returns
at the first entry whose `Name` matches (the field switch covers every
`PrunerFieldType` case used by the program). -/
def getFromPrunerConfigResourceLevel (namespacesSpec : List (String × PrunerResourceSpec))
    (ns name : String) (resourceType : PrunerResourceType) (fieldType : PrunerFieldType) :
    Option Int :=
  match namespacesSpec.lookup ns with
  | none => none
  | some prunerResourceSpec =>
    match (prunerResourceSpec.resourceSpecs resourceType).find? (fun rs => rs.name == name) with
    | some rs => rs.fieldValue fieldType
    | none => none

/-- The Go statement `if ttl == nil { ttl = x }`: keep `ttl` when it is
already defined, otherwise take `x`. -/
def orIfNil (ttl x : Option Int) : Option Int :=
  match ttl with
  | some v => some v
  | none => x

/-- The `EnforcedConfigLevelGlobal` arm of `getResourceFieldData`'s switch:
global resource level, then global namespace root, then global root, each
consulted only while `ttl` is still undefined (`if ttl == nil`). -/
def getResourceFieldDataGlobalArm (globalSpec : PrunerConfig) (ns name : String)
    (resourceType : PrunerResourceType) (fieldType : PrunerFieldType) (ttl : Option Int) :
    Option Int :=
  let ttl := orIfNil ttl
    (getFromPrunerConfigResourceLevel globalSpec.namespaces ns name resourceType fieldType)
  let ttl := orIfNil ttl
    (match globalSpec.namespaces.lookup ns with
     | some spec => spec.fieldValue fieldType
     | none => none)
  orIfNil ttl (globalSpec.fieldValue fieldType)

/-- The `EnforcedConfigLevelNamespace` arm of `getResourceFieldData`'s switch:
namespace root of the namespaced config while `ttl` is undefined, then
fall through to the global arm. -/
def getResourceFieldDataNamespaceArm (namespacedSpec : List (String × PrunerResourceSpec))
    (globalSpec : PrunerConfig) (ns name : String)
    (resourceType : PrunerResourceType) (fieldType : PrunerFieldType) (ttl : Option Int) :
    Option Int :=
  let ttl := orIfNil ttl
    (match namespacedSpec.lookup ns with
     | some spec => spec.fieldValue fieldType
     | none => none)
  getResourceFieldDataGlobalArm globalSpec ns name resourceType fieldType ttl

/-- Go `getResourceFieldData` — the layered value lookup.  The Go `switch` on
`enforcedConfigLevel` enters at the matching case and `fallthrough`s into
the cases below it. -/
def getResourceFieldData (namespacedSpec : List (String × PrunerResourceSpec))
    (globalSpec : PrunerConfig) (ns name : String) (resourceType : PrunerResourceType)
    (fieldType : PrunerFieldType) (enforcedConfigLevel : EnforcedConfigLevel) : Option Int :=
  match enforcedConfigLevel with
  | .resourceLevel =>
    getResourceFieldDataNamespaceArm namespacedSpec globalSpec ns name resourceType fieldType
      (getFromPrunerConfigResourceLevel namespacedSpec ns name resourceType fieldType)
  | .namespaceLevel =>
    getResourceFieldDataNamespaceArm namespacedSpec globalSpec ns name resourceType fieldType none
  | .globalLevel =>
    getResourceFieldDataGlobalArm globalSpec ns name resourceType fieldType none

/-! ## The five policy layers of the spec

Layer ⓑ: namespace policy, resource level.  Layer ⓒ: namespace policy root.
Layer ⓓ: global policy, the namespace's resource level.  Layer ⓔ: global
policy namespace root.  Layer ⓕ: global policy root.  Each is the code
fragment `getResourceFieldData` consults for that tier. -/

/-- Layer ⓑ — namespace policy, resource level. -/
def layerNamespaceResource (namespacedSpec : List (String × PrunerResourceSpec))
    (ns name : String) (rt : PrunerResourceType) (ft : PrunerFieldType) : Option Int :=
  getFromPrunerConfigResourceLevel namespacedSpec ns name rt ft

/-- Layer ⓒ — namespace policy root. -/
def layerNamespaceRoot (namespacedSpec : List (String × PrunerResourceSpec))
    (ns : String) (ft : PrunerFieldType) : Option Int :=
  match namespacedSpec.lookup ns with
  | some spec => spec.fieldValue ft
  | none => none

/-- Layer ⓓ — global policy, the namespace's resource level. -/
def layerGlobalResource (globalSpec : PrunerConfig) (ns name : String)
    (rt : PrunerResourceType) (ft : PrunerFieldType) : Option Int :=
  getFromPrunerConfigResourceLevel globalSpec.namespaces ns name rt ft

/-- Layer ⓔ — global policy, namespace root. -/
def layerGlobalNamespaceRoot (globalSpec : PrunerConfig) (ns : String)
    (ft : PrunerFieldType) : Option Int :=
  match globalSpec.namespaces.lookup ns with
  | some spec => spec.fieldValue ft
  | none => none

/-- Layer ⓕ — global policy root. -/
def layerGlobalRoot (globalSpec : PrunerConfig) (ft : PrunerFieldType) : Option Int :=
  globalSpec.fieldValue ft

/-- First defined value of a list of layers, walking in order. -/
def firstDefined : List (Option Int) → Option Int
  | [] => none
  | o :: rest =>
    match o with
    | some v => some v
    | none => firstDefined rest

/-! ## The pruner config store (`prunerConfigStore`) -/

/-- The fields of `prunerConfigStore` (its `sync.RWMutex` guards the two maps
and plays no role in the sequential semantics of the lookups). -/
structure PrunerConfigStoreState where
  globalConfig : PrunerConfig := {}
  namespacedConfig : List (String × PrunerResourceSpec) := []
deriving DecidableEq

/-- Go `GetEnforcedConfigLevelFromNamespaceSpec` — resolve `enforcedConfigLevel`
from a namespaces map: the named resource's entry first, then the namespace
root.  NOTE: the Go body ignores its `namespacesSpec` parameter and always
reads `ps.globalConfig.Namespaces`; the embedding keeps that behaviour. -/
def GetEnforcedConfigLevelFromNamespaceSpec (ps : PrunerConfigStoreState)
    (namespacesSpec : List (String × PrunerResourceSpec)) (ns name : String)
    (resourceType : PrunerResourceType) : Option EnforcedConfigLevel :=
  match ps.globalConfig.namespaces.lookup ns with
  | none => none
  | some namespaceSpec =>
    match (namespaceSpec.resourceSpecs resourceType).find? (fun rs => rs.name == name) with
    | some resourceSpec =>
      -- found on resource level: return it when set, otherwise `break`
      -- out of the loop and fall back to the namespace root level
      match resourceSpec.enforcedConfigLevel with
      | some l => some l
      | none => namespaceSpec.enforcedConfigLevel
    | none => namespaceSpec.enforcedConfigLevel

/-- Go `getEnforcedConfigLevel` — global spec (resource level, then namespace
root), then global root, then the namespaced spec (resource level, then
root), defaulting to `resource`. -/
def getEnforcedConfigLevel (ps : PrunerConfigStoreState) (ns name : String)
    (resourceType : PrunerResourceType) : EnforcedConfigLevel :=
  match GetEnforcedConfigLevelFromNamespaceSpec ps ps.globalConfig.namespaces ns name resourceType with
  | some l => l
  | none =>
    match ps.globalConfig.enforcedConfigLevel with
    | some l => l
    | none =>
      match GetEnforcedConfigLevelFromNamespaceSpec ps ps.namespacedConfig ns name resourceType with
      | some l => l
      | none => .resourceLevel

/-- The shared body of the six store getters
(`GetPipelineTTLSecondsAfterFinished`, `GetTaskSuccessHistoryLimitCount`, …):
resolve the enforced config level, then run the layered field lookup with it. -/
def prunerConfigStoreGet (ps : PrunerConfigStoreState) (ns name : String)
    (resourceType : PrunerResourceType) (fieldType : PrunerFieldType) : Option Int :=
  getResourceFieldData ps.namespacedConfig ps.globalConfig ns name resourceType fieldType
    (getEnforcedConfigLevel ps ns name resourceType)

/-- Resolution of `enforcedConfigLevel` from one namespaces map as the spec
words it, reading the map it is given (what the `namespacesSpec` parameter of
`GetEnforcedConfigLevelFromNamespaceSpec` was for): resource-level entry
first, then the namespace root. -/
def enforcedConfigLevelOfNamespacesSpec (namespacesSpec : List (String × PrunerResourceSpec))
    (ns name : String) (resourceType : PrunerResourceType) : Option EnforcedConfigLevel :=
  match namespacesSpec.lookup ns with
  | none => none
  | some namespaceSpec =>
    match (namespaceSpec.resourceSpecs resourceType).find? (fun rs => rs.name == name) with
    | some resourceSpec =>
      match resourceSpec.enforcedConfigLevel with
      | some l => some l
      | none => namespaceSpec.enforcedConfigLevel
    | none => namespaceSpec.enforcedConfigLevel

/-- Modelled from the spec: "Resolving `enforcedConfigLevel` itself follows a
fixed order: global resource-level → global namespace-root → global
global-root → namespace resource-level → namespace namespace-root → default
`resource`."  The namespaced document is genuinely consulted here, unlike in
the Go `getEnforcedConfigLevel`. -/
def getEnforcedConfigLevelSpecOrder (ps : PrunerConfigStoreState) (ns name : String)
    (resourceType : PrunerResourceType) : EnforcedConfigLevel :=
  match enforcedConfigLevelOfNamespacesSpec ps.globalConfig.namespaces ns name resourceType with
  | some l => l
  | none =>
    match ps.globalConfig.enforcedConfigLevel with
    | some l => l
    | none =>
      match enforcedConfigLevelOfNamespacesSpec ps.namespacedConfig ns name resourceType with
      | some l => l
      | none => .resourceLevel

/-! ## Loading the global config (`LoadGlobalConfig`) -/

/-- Modelled from the spec: the key of the single text field of the pruner
ConfigMap that holds the global policy document (the file defining the Go
constant `PrunerGlobalConfigKey` is not among the sources). -/
def PrunerGlobalConfigKey : String := "global-config"

/-- A `corev1.ConfigMap`'s `Data` field: a nil-able `map[string]string`.
Reading a key of a `nil` map or an absent key yields `""`. -/
structure ConfigMapData where
  data : Option (List (String × String)) := none
deriving DecidableEq

/-- Reading `configMap.Data[key]` with Go map-read semantics. -/
def ConfigMapData.get (cm : ConfigMapData) (key : String) : String :=
  match cm.data with
  | none => ""
  | some m => (m.lookup key).getD ""

/-- Go `LoadGlobalConfig` — parse the document under `PrunerGlobalConfigKey`
(when the `Data` map is non-nil and the value non-empty) and replace the
stored global config with the result; a parse error is returned before any
field of the store is assigned, so the store comes back unchanged.  The
`yaml.Unmarshal` call is supplied as the `parseYaml` parameter.  (The Go
nil-map normalisations of `Namespaces` and `namespacedConfig` are identities
in this model, where a nil map and an empty map are both `[]`.) -/
def LoadGlobalConfig (parseYaml : String → Except String PrunerConfig)
    (ps : PrunerConfigStoreState) (configMap : ConfigMapData) :
    PrunerConfigStoreState × Option String :=
  let parsed : Except String PrunerConfig :=
    if configMap.data.isSome ∧ configMap.get PrunerGlobalConfigKey ≠ "" then
      parseYaml (configMap.get PrunerGlobalConfigKey)
    else
      .ok {}
  match parsed with
  | .error e => (ps, some e)
  | .ok globalConfig => ({ ps with globalConfig := globalConfig }, none)

/-! ## The periodic sweep (`tektonpruner` controller: `runGarbageCollector`,
`cleanupPRs`, `cleanupTRs`) -/

/-- Modelled from the spec: the pruner annotation recording the last
history-limit evaluation (`pruner.tekton.dev/history-checked-at`); the file
defining the Go constant `AnnotationHistoryLimitCheckProcessed` is not among
the sources, but the spec names the key. -/
def AnnotationHistoryLimitCheckProcessed : String := "pruner.tekton.dev/history-checked-at"

/-- The error message tag for a failed `time.Parse` of the
history-limit-checked annotation. -/
def timeParseErrorMsg : String := "parsing time"

/-- The view of a PipelineRun/TaskRun list item that the cleanup loops use. -/
structure RunObj where
  name : String
  /-- Whether `Status.CompletionTime != nil` -/
  completionTimeSet : Bool
  annotations : List (String × String) := []
  /-- Go `HasPipelineRunOwnerReference()` (consulted only by `cleanupTRs`) -/
  ownedByPipelineRun : Bool := false
deriving DecidableEq

/-- Outcome of one Kubernetes `Patch` call. -/
inductive PatchRes where
  | ok
  | notFound
  | failed (e : String)
deriving DecidableEq

/-- The external effects of the cleanup loops, supplied as functions:
RFC3339 `time.Parse`, the annotation-removal patch (by run name), and the
history-limiter / TTL-handler `ProcessEvent` calls (by run name, `none`
meaning success). -/
structure CleanupEnv where
  parseTime : String → Option Int
  patch : String → PatchRes
  histProcess : String → Option String
  ttlProcess : String → Option String

/-- Observable actions of a cleanup pass: runs for which an
annotation-removal patch was requested, runs whose patch succeeded, and runs
on which the history limiter (and then the TTL handler) was invoked. -/
structure StepTrace where
  patchRequests : List String := []
  patched : List String := []
  processed : List String := []
deriving DecidableEq

/-- Per-run result: continue with the next run of the namespace, or abort
the namespace's loop by returning an error. -/
inductive StepRes where
  | cont (t : StepTrace)
  | abort (t : StepTrace) (e : String)
deriving DecidableEq

/-- The trace accumulated by a step, whether it continued or aborted. -/
def StepRes.trace : StepRes → StepTrace
  | .cont t => t
  | .abort t _ => t

/-- The tail of each loop iteration: `ProcessEvent` of the history limiter,
then of the TTL handler; either error is returned (aborting the loop).
`patchTrace` carries the names patched earlier in the iteration. -/
def runHandlers (env : CleanupEnv) (run : RunObj) (patchRequests patched : List String) :
    StepRes :=
  match env.histProcess run.name with
  | some e => .abort ⟨patchRequests, patched, [run.name]⟩ e
  | none =>
    match env.ttlProcess run.name with
    | some e => .abort ⟨patchRequests, patched, [run.name]⟩ e
    | none => .cont ⟨patchRequests, patched, [run.name]⟩

/-- One iteration of the `cleanupPRs` loop body for a single PipelineRun. -/
def cleanupStepPR (env : CleanupEnv) (configMapUpdateTime : String) (run : RunObj) : StepRes :=
  if run.completionTimeSet then
    let annVal := (run.annotations.lookup AnnotationHistoryLimitCheckProcessed).getD ""
    if annVal ≠ "" then
      match env.parseTime annVal with
      | none => .abort {} timeParseErrorMsg
      | some annotationTime =>
        match env.parseTime configMapUpdateTime with
        | none => .abort {} timeParseErrorMsg
        | some updateTime =>
          -- `updateTime.After(annotationTime)`
          if annotationTime < updateTime then
            match env.patch run.name with
            | .notFound => .cont ⟨[run.name], [], []⟩   -- already deleted: `continue`
            | .failed e => .abort ⟨[run.name], [], []⟩ e
            | .ok => runHandlers env run [run.name] [run.name]
          else
            runHandlers env run [] []
    else
      runHandlers env run [] []
  else
    .cont {}

/-- One iteration of the `cleanupTRs` loop body for a single TaskRun.  It
differs from the PipelineRun iteration in the eligibility test (a TaskRun
owned by a PipelineRun is skipped) and in that the Go code discards the
error of parsing `configMapUpdateTime` (a failed parse leaves `updateTime`
the zero `time.Time`, modelled as `0`). -/
def cleanupStepTR (env : CleanupEnv) (configMapUpdateTime : String) (run : RunObj) : StepRes :=
  if run.completionTimeSet ∧ ¬run.ownedByPipelineRun then
    let annVal := (run.annotations.lookup AnnotationHistoryLimitCheckProcessed).getD ""
    if annVal ≠ "" then
      match env.parseTime annVal with
      | none => .abort {} timeParseErrorMsg
      | some annotationTime =>
        let updateTime := (env.parseTime configMapUpdateTime).getD 0
        if annotationTime < updateTime then
          match env.patch run.name with
          | .notFound => .cont ⟨[run.name], [], []⟩
          | .failed e => .abort ⟨[run.name], [], []⟩ e
          | .ok => runHandlers env run [run.name] [run.name]
        else
          runHandlers env run [] []
    else
      runHandlers env run [] []
  else
    .cont {}

/-- Result of a whole cleanup pass over one namespace's runs of one kind. -/
structure CleanupOutcome where
  trace : StepTrace := {}
  err : Option String := none
deriving DecidableEq

/-- Concatenation of step traces in loop order. -/
def StepTrace.append (a b : StepTrace) : StepTrace :=
  ⟨a.patchRequests ++ b.patchRequests, a.patched ++ b.patched, a.processed ++ b.processed⟩

/-- Run a per-run step over the list of runs, stopping at the first step
that aborts (the Go loops `return err` there). -/
def cleanupLoop (step : RunObj → StepRes) : List RunObj → CleanupOutcome
  | [] => {}
  | run :: rest =>
    match step run with
    | .abort t e => ⟨t, some e⟩
    | .cont t =>
      let r := cleanupLoop step rest
      ⟨t.append r.trace, r.err⟩

/-- Go `cleanupPRs` over the PipelineRuns the List call returned. -/
def cleanupPRs (env : CleanupEnv) (configMapUpdateTime : String) (runs : List RunObj) :
    CleanupOutcome :=
  cleanupLoop (cleanupStepPR env configMapUpdateTime) runs

/-- Go `cleanupTRs` over the TaskRuns the List call returned. -/
def cleanupTRs (env : CleanupEnv) (configMapUpdateTime : String) (runs : List RunObj) :
    CleanupOutcome :=
  cleanupLoop (cleanupStepTR env configMapUpdateTime) runs

/-- One namespace's runs, as listed by the sweep. -/
structure NamespaceRuns where
  prs : List RunObj := []
  trs : List RunObj := []

/-- The body of a sweep worker for one namespace: `cleanupPRs`, then —
regardless of whether `cleanupPRs` returned an error (it is only logged and
reported) — `cleanupTRs`. -/
def gcProcessNamespace (env : CleanupEnv) (configMapUpdateTime : String)
    (nsRuns : NamespaceRuns) : CleanupOutcome × CleanupOutcome :=
  (cleanupPRs env configMapUpdateTime nsRuns.prs,
   cleanupTRs env configMapUpdateTime nsRuns.trs)

/-- The `(namespace, resource_type)` labels of the `gc_cleanup` resource
errors the worker reports for one namespace. -/
def gcErrorReports (ns : String) (out : CleanupOutcome × CleanupOutcome) :
    List (String × String) :=
  (match out.1.err with
   | some _ => [(ns, "pipelinerun")]
   | none => []) ++
  (match out.2.err with
   | some _ => [(ns, "taskrun")]
   | none => [])

/-- The namespace fan-out of `runGarbageCollector`: every selected namespace
is handed to a worker and processed; a namespace's outcome never depends on
another namespace's errors. -/
def runGarbageCollectorSweep (env : CleanupEnv) (configMapUpdateTime : String)
    (namespaces : List (String × NamespaceRuns)) :
    List (String × (CleanupOutcome × CleanupOutcome)) :=
  namespaces.map fun p => (p.1, gcProcessNamespace env configMapUpdateTime p.2)

/-! ## JSON-Patch annotation removal -/

/-- Go `strings.ReplaceAll(s, "/", "~1")` at the character level. -/
def escapeChars : List Char → List Char
  | [] => []
  | c :: rest => if c = '/' then '~' :: '1' :: escapeChars rest else c :: escapeChars rest

/-- The path-segment escape the cleanup loops apply to the annotation key
(`strings.ReplaceAll(key, "/", "~1")`). -/
def escapeJSONPointerSegment (s : String) : String := ⟨escapeChars s.data⟩

/-- The `path` of the JSON-Patch `remove` operation built by
`cleanupPRs`/`cleanupTRs`. -/
def annotationRemovePatchPath : String :=
  "/metadata/annotations/" ++ escapeJSONPointerSegment AnnotationHistoryLimitCheckProcessed

/-- RFC 6901 unescape of `~1` back to `/` at the character level. -/
def unescapeChars : List Char → List Char
  | [] => []
  | '~' :: '1' :: rest => '/' :: unescapeChars rest
  | c :: rest => c :: unescapeChars rest

/-- JSON-Pointer unescape applied by the API server to a path segment
(RFC 6901: `~1` decodes to `/`). -/
def unescapeJSONPointerSegment (s : String) : String := ⟨unescapeChars s.data⟩

/-- The effect of the JSON-Patch `remove` on the annotations map: the
addressed key is removed and nothing else changes. -/
def jsonPatchRemoveKey (annotations : List (String × String)) (key : String) :
    List (String × String) :=
  annotations.filter fun p => p.1 ≠ key

/-! ## The TaskRun adapter (`TrFuncs`, `taskrun` package) -/

/-- Go `corev1.ConditionStatus`. -/
inductive ConditionStatus where
  | conditionTrue
  | conditionFalse
  | conditionUnknown
deriving DecidableEq

/-- A `knative.dev/pkg/apis` condition of a TaskRun status.  A
`metav1.Time` instant is an `Int`, with `0` standing for the zero
`time.Time` (`IsZero`). -/
structure Condition where
  condType : String
  status : ConditionStatus
  reason : String := ""
  lastTransitionTime : Int := 0
deriving DecidableEq

/-- The parts of `TaskRun.Status` the adapter reads. -/
structure TaskRunStatus where
  startTime : Option Int := none
  completionTime : Option Int := none
  conditions : List Condition := []
deriving DecidableEq

/-- A TaskRun resource (`ns` stands for the metadata `Namespace`, a Lean
keyword). -/
structure TaskRun where
  ns : String := ""
  name : String := ""
  status : TaskRunStatus := {}
deriving DecidableEq

/-- Constant `apis.ConditionSucceeded`. -/
def ConditionSucceeded : String := "Succeeded"

/-- Modelled external constant `pipelinev1.TaskRunReasonSuccessful`
(the Tekton pipeline library value `"Succeeded"`). -/
def TaskRunReasonSuccessful : String := "Succeeded"

/-- Go `Status.GetCondition(t)` — the condition of the requested type. -/
def TaskRunStatus.getCondition (st : TaskRunStatus) (t : String) : Option Condition :=
  st.conditions.find? fun c => c.condType == t

/-- The failure cases of `TrFuncs.GetCompletionTime` (its type-assertion
failure branch cannot fire here, where the input is a `TaskRun` by type). -/
inductive CompletionTimeErr where
  /-- Message "unable to find the time when the resource finished" — the succeeded
  condition's `LastTransitionTime` is the zero time. -/
  | zeroTransitionTime
  /-- Message "unable to find the status of the finished resource" — no succeeded
  condition with a non-Unknown status. -/
  | statusNotFound
deriving DecidableEq

/-- Go `TrFuncs.GetCompletionTime` — the status completion time when set;
otherwise the succeeded condition's last-transition time when the condition
exists with non-Unknown status and a non-zero time; otherwise an error. -/
def GetCompletionTime (tr : TaskRun) : Except CompletionTimeErr Int :=
  match tr.status.completionTime with
  | some t => .ok t
  | none =>
    match tr.status.getCondition ConditionSucceeded with
    | some condition =>
      if condition.status ≠ .conditionUnknown then
        if condition.lastTransitionTime = 0 then
          .error .zeroTransitionTime
        else
          .ok condition.lastTransitionTime
      else
        .error .statusNotFound
    | none => .error .statusNotFound

/-- Go `TrFuncs.IsSuccessful` — the succeeded condition exists and its reason
is the TaskRun successful reason. -/
def IsSuccessful (tr : TaskRun) : Bool :=
  match tr.status.getCondition ConditionSucceeded with
  | none => false
  | some condition => condition.reason == TaskRunReasonSuccessful

/-- Go `TrFuncs.IsFailed` — the negation of `IsSuccessful` (after a type
assertion that always succeeds on a `TaskRun`). -/
def IsFailed (tr : TaskRun) : Bool :=
  !IsSuccessful tr

/-! ## Sweep serialization (`safeRunGarbageCollector`) -/

/-- The identity of the `sync.Mutex` the i-th invocation of
`safeRunGarbageCollector` locks.  The Go function body begins with
`var gcMutex sync.Mutex`: the mutex is a local variable, so every
invocation allocates a fresh one, modelled by giving invocation `i` the
mutex identity `i`. -/
def safeRunGCMutexOf (invocation : Nat) : Nat := invocation

/-- Locking a mutex given the set of currently held mutexes: blocks
(returns `none`) exactly when the same mutex is already held, and otherwise
adds it to the held set. -/
def mutexLock (held : List Nat) (m : Nat) : Option (List Nat) :=
  if m ∈ held then none else some (m :: held)

/-! ## Concrete fixtures used by counterexamples and witnesses -/

/-- A global policy document whose only defined value sits at layer ⓓ
(the namespace's resource level inside the global document). -/
def globalResourceOnlyDoc : PrunerConfig :=
  { namespaces := [("ns1", { pipelineRuns := [{ name := "pr1", ttlSecondsAfterFinished := some 5 }] })] }

/-- A store whose global document is empty and whose namespaced config pins
`enforcedConfigLevel: global` at the root of namespace `ns1`. -/
def namespacedOnlyStore : PrunerConfigStoreState :=
  { globalConfig := {},
    namespacedConfig := [("ns1", { enforcedConfigLevel := some .globalLevel })] }

/-- A store with values on every layer for namespace `ns1` / PipelineRun
`pr1`, used to exercise the layer walk. -/
def layeredStore : PrunerConfigStoreState :=
  { globalConfig :=
      { ttlSecondsAfterFinished := some 600,
        namespaces :=
          [("ns1",
            { ttlSecondsAfterFinished := some 300,
              pipelineRuns := [{ name := "pr1", ttlSecondsAfterFinished := some 120 }] })] },
    namespacedConfig :=
      [("ns1",
        { ttlSecondsAfterFinished := some 90,
          pipelineRuns := [{ name := "pr1", ttlSecondsAfterFinished := some 60 }] })] }

/-- A cleanup environment whose history limiter fails on `pr1` and succeeds
elsewhere; patches succeed and nothing parses as a time. -/
def histFailEnv : CleanupEnv :=
  { parseTime := fun _ => none,
    patch := fun _ => .ok,
    histProcess := fun n => if n = "pr1" then some "boom" else none,
    ttlProcess := fun _ => none }

/-- A cleanup environment where nothing parses as a time and every external
call succeeds. -/
def badAnnEnv : CleanupEnv :=
  { parseTime := fun _ => none,
    patch := fun _ => .ok,
    histProcess := fun _ => none,
    ttlProcess := fun _ => none }

/-- A completed run carrying an unparseable history-checked-at annotation. -/
def badAnnRun : RunObj :=
  { name := "pr1", completionTimeSet := true,
    annotations := [(AnnotationHistoryLimitCheckProcessed, "not-a-time")] }

/-- A cleanup environment where `"old"` parses to time 1 and `"new"` to
time 5, the patch call answers 404, and the handlers succeed. -/
def staleAnnEnv : CleanupEnv :=
  { parseTime := fun s => if s = "old" then some 1 else if s = "new" then some 5 else none,
    patch := fun _ => .notFound,
    histProcess := fun _ => none,
    ttlProcess := fun _ => none }

/-- A completed run stamped with the (stale) history-checked-at value
`"old"`. -/
def staleAnnRun : RunObj :=
  { name := "pr1", completionTimeSet := true,
    annotations := [(AnnotationHistoryLimitCheckProcessed, "old")] }

/-- A TaskRun with no completion time whose succeeded condition is `True`
but carries the zero last-transition time. -/
def zeroTimeTaskRun : TaskRun :=
  { ns := "ns1", name := "tr1",
    status :=
      { startTime := some 1,
        conditions :=
          [{ condType := ConditionSucceeded, status := .conditionTrue,
             reason := "Succeeded", lastTransitionTime := 0 }] } }

/-- A TaskRun with a set completion time. -/
def completedTaskRun : TaskRun :=
  { ns := "ns1", name := "tr2", status := { completionTime := some 7 } }

/-! # Helper lemmas -/

lemma orIfNil_assoc (a b c : Option Int) :
    orIfNil (orIfNil a b) c = orIfNil a (orIfNil b c) := by
  cases a <;> rfl

lemma orIfNil_none_right (a : Option Int) : orIfNil a none = a := by
  cases a <;> rfl

lemma firstDefined_cons (o : Option Int) (rest : List (Option Int)) :
    firstDefined (o :: rest) = orIfNil o (firstDefined rest) := rfl

lemma firstDefined_nil : firstDefined [] = none := rfl

lemma getResourceFieldDataGlobalArm_eq (globalSpec : PrunerConfig) (ns name : String)
    (rt : PrunerResourceType) (ft : PrunerFieldType) (ttl : Option Int) :
    getResourceFieldDataGlobalArm globalSpec ns name rt ft ttl =
      firstDefined [ttl, layerGlobalResource globalSpec ns name rt ft,
        layerGlobalNamespaceRoot globalSpec ns ft, layerGlobalRoot globalSpec ft] := by
  simp only [getResourceFieldDataGlobalArm, layerGlobalResource, layerGlobalNamespaceRoot,
    layerGlobalRoot, firstDefined_cons, firstDefined_nil, orIfNil_assoc, orIfNil_none_right]

lemma getResourceFieldDataNamespaceArm_eq (namespacedSpec : List (String × PrunerResourceSpec))
    (globalSpec : PrunerConfig) (ns name : String)
    (rt : PrunerResourceType) (ft : PrunerFieldType) (ttl : Option Int) :
    getResourceFieldDataNamespaceArm namespacedSpec globalSpec ns name rt ft ttl =
      firstDefined [ttl, layerNamespaceRoot namespacedSpec ns ft,
        layerGlobalResource globalSpec ns name rt ft,
        layerGlobalNamespaceRoot globalSpec ns ft, layerGlobalRoot globalSpec ft] := by
  simp only [getResourceFieldDataNamespaceArm, layerNamespaceRoot,
    getResourceFieldDataGlobalArm_eq, firstDefined_cons, firstDefined_nil, orIfNil_assoc,
    orIfNil_none_right]

lemma runHandlers_trace (env : CleanupEnv) (run : RunObj) (pr pa : List String) :
    (runHandlers env run pr pa).trace = ⟨pr, pa, [run.name]⟩ := by
  unfold runHandlers
  cases env.histProcess run.name with
  | some e => rfl
  | none => cases env.ttlProcess run.name <;> rfl

lemma lookup_cons_pair (k : String) (p : String × String) (ps : List (String × String)) :
    List.lookup k (p :: ps) = if k == p.1 then some p.2 else List.lookup k ps := by
  obtain ⟨a, b⟩ := p
  show (match k == a with
        | true => some b
        | false => List.lookup k ps) = _
  cases h : k == a <;> simp [h]

lemma lookup_jsonPatchRemoveKey (annotations : List (String × String)) (key k : String)
    (hk : k ≠ key) :
    (jsonPatchRemoveKey annotations key).lookup k = annotations.lookup k := by
  induction annotations with
  | nil => rfl
  | cons p ps ih =>
    by_cases hp : p.1 = key
    · have hfilter : jsonPatchRemoveKey (p :: ps) key = jsonPatchRemoveKey ps key := by
        simp [jsonPatchRemoveKey, List.filter_cons, hp]
      have hkp : (k == p.1) = false := by
        rw [beq_eq_false_iff_ne]
        exact fun h => hk (h.trans hp)
      rw [hfilter, ih, lookup_cons_pair k p ps, hkp]
      simp
    · have hfilter : jsonPatchRemoveKey (p :: ps) key = p :: jsonPatchRemoveKey ps key := by
        simp [jsonPatchRemoveKey, List.filter_cons, hp]
      rw [hfilter, lookup_cons_pair k p (jsonPatchRemoveKey ps key),
        lookup_cons_pair k p ps, ih]

lemma mem_gcErrorReports_pr (ns : String) (out : CleanupOutcome × CleanupOutcome) (e : String)
    (h : out.1.err = some e) : (ns, "pipelinerun") ∈ gcErrorReports ns out := by
  unfold gcErrorReports
  rw [h]
  exact List.mem_append_left _ (List.mem_singleton_self _)

lemma mem_gcErrorReports_tr (ns : String) (out : CleanupOutcome × CleanupOutcome) (e : String)
    (h : out.2.err = some e) : (ns, "taskrun") ∈ gcErrorReports ns out := by
  unfold gcErrorReports
  rw [h]
  exact List.mem_append_right _ (List.mem_singleton_self _)

/-! # Theorems settling the claims -/

/-- C1: for every store and every (namespace, kind, name, field) whose
resolved enforcedConfigLevel is `resource`, the store lookup returns the
first defined value walking the layers in order ⓑ namespace policy resource
level, ⓒ namespace policy root, ⓓ global policy namespace's resource level,
ⓔ global policy namespace root, ⓕ global policy root — and in particular
`none` when every one of those layers is undefined. -/
theorem resource_level_lookup_walks_layers (ps : PrunerConfigStoreState)
    (ns name : String) (rt : PrunerResourceType) (ft : PrunerFieldType)
    (h : getEnforcedConfigLevel ps ns name rt = .resourceLevel) :
    prunerConfigStoreGet ps ns name rt ft =
      firstDefined
        [layerNamespaceResource ps.namespacedConfig ns name rt ft,
         layerNamespaceRoot ps.namespacedConfig ns ft,
         layerGlobalResource ps.globalConfig ns name rt ft,
         layerGlobalNamespaceRoot ps.globalConfig ns ft,
         layerGlobalRoot ps.globalConfig ft] := by
  unfold prunerConfigStoreGet
  rw [h]
  unfold getResourceFieldData
  rw [getResourceFieldDataNamespaceArm_eq]
  rfl

/-- C1 witness: on the all-layers store the resolved level is `resource`
and the lookup walks the layers (selecting layer ⓑ's value 60). -/
theorem resource_level_lookup_walks_layers_witness :
    getEnforcedConfigLevel layeredStore "ns1" "pr1" .pipelineRun = .resourceLevel ∧
    prunerConfigStoreGet layeredStore "ns1" "pr1" .pipelineRun .ttlSecondsAfterFinished =
      firstDefined
        [layerNamespaceResource layeredStore.namespacedConfig "ns1" "pr1" .pipelineRun .ttlSecondsAfterFinished,
         layerNamespaceRoot layeredStore.namespacedConfig "ns1" .ttlSecondsAfterFinished,
         layerGlobalResource layeredStore.globalConfig "ns1" "pr1" .pipelineRun .ttlSecondsAfterFinished,
         layerGlobalNamespaceRoot layeredStore.globalConfig "ns1" .ttlSecondsAfterFinished,
         layerGlobalRoot layeredStore.globalConfig .ttlSecondsAfterFinished] :=
  ⟨by decide,
   resource_level_lookup_walks_layers layeredStore "ns1" "pr1" .pipelineRun
     .ttlSecondsAfterFinished (by decide)⟩

/-- C2 counterexample: under `enforcedConfigLevel = global` the code also
consults layer ⓓ (the global document's resource level): on
`globalResourceOnlyDoc` the global-level lookup returns 5 although the
global namespace-root layer ⓔ and global root layer ⓕ are both undefined,
so the value is not "taken only from ⓔ or ⓕ". -/
theorem global_level_reads_resource_layer_counterexample :
    getResourceFieldData [] globalResourceOnlyDoc "ns1" "pr1" .pipelineRun
        .ttlSecondsAfterFinished .globalLevel = some 5 ∧
    layerGlobalNamespaceRoot globalResourceOnlyDoc "ns1" .ttlSecondsAfterFinished = none ∧
    layerGlobalRoot globalResourceOnlyDoc .ttlSecondsAfterFinished = none := by
  decide

/-- C2 (amended): the cap admits, for `global`, layers ⓓ/ⓔ/ⓕ (not only
ⓔ/ⓕ); for `namespace`, layers ⓒ/ⓓ/ⓔ/ⓕ (namespace resource level ⓑ cannot
supply the value); for `resource`, all five layers — in each case walking
them in precedence order. -/
theorem enforced_level_caps_layers (namespacedSpec : List (String × PrunerResourceSpec))
    (globalSpec : PrunerConfig) (ns name : String)
    (rt : PrunerResourceType) (ft : PrunerFieldType) :
    getResourceFieldData namespacedSpec globalSpec ns name rt ft .globalLevel =
      firstDefined
        [layerGlobalResource globalSpec ns name rt ft,
         layerGlobalNamespaceRoot globalSpec ns ft,
         layerGlobalRoot globalSpec ft] ∧
    getResourceFieldData namespacedSpec globalSpec ns name rt ft .namespaceLevel =
      firstDefined
        [layerNamespaceRoot namespacedSpec ns ft,
         layerGlobalResource globalSpec ns name rt ft,
         layerGlobalNamespaceRoot globalSpec ns ft,
         layerGlobalRoot globalSpec ft] ∧
    getResourceFieldData namespacedSpec globalSpec ns name rt ft .resourceLevel =
      firstDefined
        [layerNamespaceResource namespacedSpec ns name rt ft,
         layerNamespaceRoot namespacedSpec ns ft,
         layerGlobalResource globalSpec ns name rt ft,
         layerGlobalNamespaceRoot globalSpec ns ft,
         layerGlobalRoot globalSpec ft] := by
  refine ⟨?_, ?_, ?_⟩
  · show getResourceFieldDataGlobalArm globalSpec ns name rt ft none = _
    rw [getResourceFieldDataGlobalArm_eq]
    rfl
  · show getResourceFieldDataNamespaceArm namespacedSpec globalSpec ns name rt ft none = _
    rw [getResourceFieldDataNamespaceArm_eq]
    rfl
  · show getResourceFieldDataNamespaceArm namespacedSpec globalSpec ns name rt ft
      (getFromPrunerConfigResourceLevel namespacedSpec ns name rt ft) = _
    rw [getResourceFieldDataNamespaceArm_eq]
    rfl

/-- C3: the enforcedConfigLevel resolution never actually consults the
namespaced policy document: `GetEnforcedConfigLevelFromNamespaceSpec`
ignores its `namespacesSpec` parameter and re-reads the global document, so
on a store whose namespaced config pins `global` at the namespace root (and
whose global document is empty) the code resolves the default `resource`,
while the specified fixed order resolves `global`. -/
theorem enforced_level_ignores_namespaced_policy :
    getEnforcedConfigLevel namespacedOnlyStore "ns1" "pr1" .pipelineRun = .resourceLevel ∧
    getEnforcedConfigLevelSpecOrder namespacedOnlyStore "ns1" "pr1" .pipelineRun = .globalLevel := by
  decide

/-- C4: when the config-map data under the pruner config key fails YAML
parsing, `LoadGlobalConfig` returns the parse error and the store comes back
unchanged, so every subsequent lookup resolves exactly as before the failed
load. -/
theorem loadGlobalConfig_parse_error_preserves_store
    (parseYaml : String → Except String PrunerConfig)
    (ps : PrunerConfigStoreState) (configMap : ConfigMapData) (e : String)
    (hdata : configMap.data.isSome = true)
    (hnonempty : configMap.get PrunerGlobalConfigKey ≠ "")
    (herr : parseYaml (configMap.get PrunerGlobalConfigKey) = .error e) :
    LoadGlobalConfig parseYaml ps configMap = (ps, some e) ∧
    ∀ ns name rt ft,
      prunerConfigStoreGet (LoadGlobalConfig parseYaml ps configMap).1 ns name rt ft =
        prunerConfigStoreGet ps ns name rt ft := by
  have h1 : LoadGlobalConfig parseYaml ps configMap = (ps, some e) := by
    unfold LoadGlobalConfig
    rw [if_pos ⟨hdata, hnonempty⟩, herr]
  exact ⟨h1, fun ns name rt ft => by rw [h1]⟩

/-- C4 witness: a failing parser on a non-empty config-map document leaves
a concrete store unchanged and surfaces the error. -/
theorem loadGlobalConfig_parse_error_preserves_store_witness :
    LoadGlobalConfig (fun _ => .error "bad yaml") layeredStore
        ⟨some [(PrunerGlobalConfigKey, "invalid-yaml-data")]⟩ =
      (layeredStore, some "bad yaml") :=
  (loadGlobalConfig_parse_error_preserves_store (fun _ => .error "bad yaml") layeredStore
    ⟨some [(PrunerGlobalConfigKey, "invalid-yaml-data")]⟩ "bad yaml"
    (by decide) (by decide) rfl).1

/-- C5 counterexample: a history-limiter failure on the first completed
PipelineRun of a namespace does not let processing continue with the
remaining Runs of that namespace — `cleanupPRs` returns the error and `pr2`
is never processed. -/
theorem per_run_error_stops_namespace_counterexample :
    (cleanupPRs histFailEnv "T"
        [{ name := "pr1", completionTimeSet := true },
         { name := "pr2", completionTimeSet := true }]).err = some "boom" ∧
    "pr2" ∉ (cleanupPRs histFailEnv "T"
        [{ name := "pr1", completionTimeSet := true },
         { name := "pr2", completionTimeSet := true }]).trace.processed := by
  decide

/-- C5 (amended): a history-limiter or TTL-handler failure on one completed
(standalone) Run aborts the processing of the remaining Runs of the same
kind in that namespace — both `cleanupPRs` and `cleanupTRs` return the
error; the sweep worker reports any such error as a
`(namespace, "pipelinerun")` resp. `(namespace, "taskrun")` resource-error
metric, still runs the TaskRun pass after a PipelineRun-pass error, and
every namespace of the sweep is processed with its own outcome, so a
namespace-level error does not abort its siblings. -/
theorem per_run_error_aborts_kind_not_siblings (env : CleanupEnv) (loadStr : String)
    (r : RunObj) (rest : List RunObj)
    (hcomp : r.completionTimeSet = true)
    (hown : r.ownedByPipelineRun = false)
    (hann : (r.annotations.lookup AnnotationHistoryLimitCheckProcessed).getD "" = "") :
    (∀ e, env.histProcess r.name = some e →
      cleanupPRs env loadStr (r :: rest) = ⟨⟨[], [], [r.name]⟩, some e⟩ ∧
      cleanupTRs env loadStr (r :: rest) = ⟨⟨[], [], [r.name]⟩, some e⟩) ∧
    (∀ e, env.histProcess r.name = none → env.ttlProcess r.name = some e →
      cleanupPRs env loadStr (r :: rest) = ⟨⟨[], [], [r.name]⟩, some e⟩ ∧
      cleanupTRs env loadStr (r :: rest) = ⟨⟨[], [], [r.name]⟩, some e⟩) ∧
    (∀ (ns : String) (nsRuns : NamespaceRuns) (e : String),
      (cleanupPRs env loadStr nsRuns.prs).err = some e →
      (ns, "pipelinerun") ∈ gcErrorReports ns (gcProcessNamespace env loadStr nsRuns)) ∧
    (∀ (ns : String) (nsRuns : NamespaceRuns) (e : String),
      (cleanupTRs env loadStr nsRuns.trs).err = some e →
      (ns, "taskrun") ∈ gcErrorReports ns (gcProcessNamespace env loadStr nsRuns)) ∧
    (∀ nsRuns : NamespaceRuns,
      (gcProcessNamespace env loadStr nsRuns).2 = cleanupTRs env loadStr nsRuns.trs) ∧
    (∀ namespaces : List (String × NamespaceRuns), ∀ p ∈ namespaces,
      (p.1, gcProcessNamespace env loadStr p.2) ∈
        runGarbageCollectorSweep env loadStr namespaces) := by
  have hPR : cleanupStepPR env loadStr r = runHandlers env r [] [] := by
    simp [cleanupStepPR, hcomp, hann]
  have hTR : cleanupStepTR env loadStr r = runHandlers env r [] [] := by
    simp [cleanupStepTR, hcomp, hown, hann]
  refine ⟨?_, ?_, ?_, ?_, fun _ => rfl, ?_⟩
  · intro e he
    have habort : runHandlers env r [] [] = .abort ⟨[], [], [r.name]⟩ e := by
      simp [runHandlers, he]
    exact ⟨by simp [cleanupPRs, cleanupLoop, hPR, habort],
           by simp [cleanupTRs, cleanupLoop, hTR, habort]⟩
  · intro e hh ht
    have habort : runHandlers env r [] [] = .abort ⟨[], [], [r.name]⟩ e := by
      simp [runHandlers, hh, ht]
    exact ⟨by simp [cleanupPRs, cleanupLoop, hPR, habort],
           by simp [cleanupTRs, cleanupLoop, hTR, habort]⟩
  · intro ns nsRuns e he
    exact mem_gcErrorReports_pr ns _ e he
  · intro ns nsRuns e he
    exact mem_gcErrorReports_tr ns _ e he
  · intro namespaces p hp
    exact List.mem_map_of_mem _ hp

/-- C5 witness: concrete instantiation — the failing `pr1` aborts both the
PipelineRun pass and the TaskRun pass of its namespace (history-limiter
case), leaving the sibling run unprocessed. -/
theorem per_run_error_aborts_kind_not_siblings_witness :
    cleanupPRs histFailEnv "T"
        [{ name := "pr1", completionTimeSet := true },
         { name := "pr2", completionTimeSet := true }] =
      ⟨⟨[], [], ["pr1"]⟩, some "boom"⟩ ∧
    cleanupTRs histFailEnv "T"
        [{ name := "pr1", completionTimeSet := true },
         { name := "pr2", completionTimeSet := true }] =
      ⟨⟨[], [], ["pr1"]⟩, some "boom"⟩ :=
  (per_run_error_aborts_kind_not_siblings histFailEnv "T"
    { name := "pr1", completionTimeSet := true }
    [{ name := "pr2", completionTimeSet := true }]
    rfl rfl rfl).1 "boom" (by decide)

/-- C6: for a completed PipelineRun (resp. standalone TaskRun) carrying the
history-checked-at annotation with an RFC3339 value, the sweep requests the
JSON-Patch removal of that annotation if and only if the annotation's
timestamp is strictly older than the sweep's config load timestamp; the
patch path escapes `/` as `~1` and, decoded back per RFC 6901, addresses
exactly the history-checked-at key, whose removal leaves every other
annotation untouched; a 404 on the patch is tolerated and the loop — in
`cleanupPRs` and in `cleanupTRs` alike — moves on to the next Run. -/
theorem sweep_strips_stale_history_stamp (env : CleanupEnv) (loadStr : String)
    (run : RunObj) (v : String) (a l : Int)
    (hcomp : run.completionTimeSet = true)
    (howned : run.ownedByPipelineRun = false)
    (hann : (run.annotations.lookup AnnotationHistoryLimitCheckProcessed).getD "" = v)
    (hv : v ≠ "")
    (hpa : env.parseTime v = some a)
    (hpl : env.parseTime loadStr = some l) :
    ((cleanupStepPR env loadStr run).trace.patchRequests =
        if a < l then [run.name] else []) ∧
    ((cleanupStepTR env loadStr run).trace.patchRequests =
        if a < l then [run.name] else []) ∧
    annotationRemovePatchPath =
      "/metadata/annotations/" ++ escapeJSONPointerSegment AnnotationHistoryLimitCheckProcessed ∧
    unescapeJSONPointerSegment (escapeJSONPointerSegment AnnotationHistoryLimitCheckProcessed) =
      AnnotationHistoryLimitCheckProcessed ∧
    (∀ (annotations : List (String × String)) (k : String),
      k ≠ AnnotationHistoryLimitCheckProcessed →
      (jsonPatchRemoveKey annotations AnnotationHistoryLimitCheckProcessed).lookup k =
        annotations.lookup k) ∧
    (a < l → env.patch run.name = .notFound →
      ∀ rest, cleanupPRs env loadStr (run :: rest) =
        ⟨StepTrace.append ⟨[run.name], [], []⟩ (cleanupPRs env loadStr rest).trace,
         (cleanupPRs env loadStr rest).err⟩) ∧
    (a < l → env.patch run.name = .notFound →
      ∀ rest, cleanupTRs env loadStr (run :: rest) =
        ⟨StepTrace.append ⟨[run.name], [], []⟩ (cleanupTRs env loadStr rest).trace,
         (cleanupTRs env loadStr rest).err⟩) := by
  have hPR : cleanupStepPR env loadStr run =
      (if a < l then
        match env.patch run.name with
        | .notFound => .cont ⟨[run.name], [], []⟩
        | .failed e => .abort ⟨[run.name], [], []⟩ e
        | .ok => runHandlers env run [run.name] [run.name]
      else runHandlers env run [] []) := by
    simp [cleanupStepPR, hcomp, hann, hv, hpa, hpl]
  have hTR : cleanupStepTR env loadStr run =
      (if a < l then
        match env.patch run.name with
        | .notFound => .cont ⟨[run.name], [], []⟩
        | .failed e => .abort ⟨[run.name], [], []⟩ e
        | .ok => runHandlers env run [run.name] [run.name]
      else runHandlers env run [] []) := by
    simp [cleanupStepTR, hcomp, howned, hann, hv, hpa, hpl]
  refine ⟨?_, ?_, rfl, by decide, ?_, ?_, ?_⟩
  · rw [hPR]
    by_cases hal : a < l
    · simp only [hal, if_true]
      cases env.patch run.name with
      | ok => rw [runHandlers_trace]
      | notFound => rfl
      | failed e => rfl
    · simp only [hal, if_false]
      rw [runHandlers_trace]
  · rw [hTR]
    by_cases hal : a < l
    · simp only [hal, if_true]
      cases env.patch run.name with
      | ok => rw [runHandlers_trace]
      | notFound => rfl
      | failed e => rfl
    · simp only [hal, if_false]
      rw [runHandlers_trace]
  · intro annotations k hk
    exact lookup_jsonPatchRemoveKey annotations AnnotationHistoryLimitCheckProcessed k hk
  · intro hal hpatch rest
    have hstep : cleanupStepPR env loadStr run = .cont ⟨[run.name], [], []⟩ := by
      rw [hPR, if_pos hal, hpatch]
    simp [cleanupPRs, cleanupLoop, hstep]
  · intro hal hpatch rest
    have hstep : cleanupStepTR env loadStr run = .cont ⟨[run.name], [], []⟩ := by
      rw [hTR, if_pos hal, hpatch]
    simp [cleanupTRs, cleanupLoop, hstep]

/-- C6 witness: a run stamped `"old"` (time 1) against load time `"new"`
(time 5) has its annotation-removal patch requested, and the 404 answer is
tolerated with both the PipelineRun and the TaskRun loop continuing. -/
theorem sweep_strips_stale_history_stamp_witness :
    ((cleanupStepPR staleAnnEnv "new" staleAnnRun).trace.patchRequests =
        if (1 : Int) < 5 then [staleAnnRun.name] else []) ∧
    cleanupPRs staleAnnEnv "new" [staleAnnRun] =
      ⟨StepTrace.append ⟨[staleAnnRun.name], [], []⟩ (cleanupPRs staleAnnEnv "new" []).trace,
       (cleanupPRs staleAnnEnv "new" []).err⟩ ∧
    cleanupTRs staleAnnEnv "new" [staleAnnRun] =
      ⟨StepTrace.append ⟨[staleAnnRun.name], [], []⟩ (cleanupTRs staleAnnEnv "new" []).trace,
       (cleanupTRs staleAnnEnv "new" []).err⟩ := by
  have h := sweep_strips_stale_history_stamp staleAnnEnv "new" staleAnnRun "old" 1 5
    rfl rfl (by decide) (by decide) (by decide) (by decide)
  exact ⟨h.1, h.2.2.2.2.2.1 (by decide) (by decide) [],
         h.2.2.2.2.2.2 (by decide) (by decide) []⟩

/-- C7 counterexample: a completed Run whose history-checked-at annotation
is not RFC3339 makes `cleanupPRs` return the parse error without stripping
the annotation (no patch requested) and without processing the Run or its
siblings. -/
theorem bad_annotation_aborts_counterexample :
    cleanupPRs badAnnEnv "T"
        [badAnnRun, { name := "pr2", completionTimeSet := true }] =
      ⟨⟨[], [], []⟩, some timeParseErrorMsg⟩ := by
  decide

/-- C7 (amended): a (standalone, completed) Run whose history-checked-at
annotation fails RFC3339 parsing causes the cleanup pass of its kind in that
namespace — `cleanupPRs` for a PipelineRun, `cleanupTRs` for a TaskRun — to
abort with the parse error: the offending annotation is not stripped (no
patch is requested) and no further Run of that kind is processed; the sweep
worker reports the pass's error as a `(namespace, "pipelinerun")` resp.
`(namespace, "taskrun")` resource error and the other namespaces are still
processed. -/
theorem bad_annotation_aborts_namespace_kind (env : CleanupEnv) (loadStr : String)
    (r : RunObj) (rest : List RunObj) (v : String)
    (hcomp : r.completionTimeSet = true)
    (hown : r.ownedByPipelineRun = false)
    (hann : (r.annotations.lookup AnnotationHistoryLimitCheckProcessed).getD "" = v)
    (hv : v ≠ "")
    (hp : env.parseTime v = none) :
    cleanupPRs env loadStr (r :: rest) = ⟨⟨[], [], []⟩, some timeParseErrorMsg⟩ ∧
    cleanupTRs env loadStr (r :: rest) = ⟨⟨[], [], []⟩, some timeParseErrorMsg⟩ ∧
    (∀ (ns : String) (nsRuns : NamespaceRuns) (e : String),
      (cleanupPRs env loadStr nsRuns.prs).err = some e →
      (ns, "pipelinerun") ∈ gcErrorReports ns (gcProcessNamespace env loadStr nsRuns)) ∧
    (∀ (ns : String) (nsRuns : NamespaceRuns) (e : String),
      (cleanupTRs env loadStr nsRuns.trs).err = some e →
      (ns, "taskrun") ∈ gcErrorReports ns (gcProcessNamespace env loadStr nsRuns)) ∧
    (∀ namespaces : List (String × NamespaceRuns), ∀ p ∈ namespaces,
      (p.1, gcProcessNamespace env loadStr p.2) ∈
        runGarbageCollectorSweep env loadStr namespaces) := by
  have hstepPR : cleanupStepPR env loadStr r = .abort ⟨[], [], []⟩ timeParseErrorMsg := by
    simp [cleanupStepPR, hcomp, hann, hv, hp]
  have hstepTR : cleanupStepTR env loadStr r = .abort ⟨[], [], []⟩ timeParseErrorMsg := by
    simp [cleanupStepTR, hcomp, hown, hann, hv, hp]
  refine ⟨by simp [cleanupPRs, cleanupLoop, hstepPR],
          by simp [cleanupTRs, cleanupLoop, hstepTR], ?_, ?_, ?_⟩
  · intro ns nsRuns e he
    exact mem_gcErrorReports_pr ns _ e he
  · intro ns nsRuns e he
    exact mem_gcErrorReports_tr ns _ e he
  · intro namespaces p hp'
    exact List.mem_map_of_mem _ hp'

/-- C7 witness: concrete instantiation on `badAnnRun`, for both kinds. -/
theorem bad_annotation_aborts_namespace_kind_witness :
    cleanupPRs badAnnEnv "T" [badAnnRun] = ⟨⟨[], [], []⟩, some timeParseErrorMsg⟩ ∧
    cleanupTRs badAnnEnv "T" [badAnnRun] = ⟨⟨[], [], []⟩, some timeParseErrorMsg⟩ :=
  have h := bad_annotation_aborts_namespace_kind badAnnEnv "T" badAnnRun [] "not-a-time"
    rfl rfl (by decide) (by decide) rfl
  ⟨h.1, h.2.1⟩

/-- C8 counterexample: a TaskRun with no status completion time but a
succeeded condition of non-Unknown status whose last-transition time is the
zero time: `GetCompletionTime` returns an error rather than that (zero)
last-transition time. -/
theorem getCompletionTime_zero_transition_counterexample :
    GetCompletionTime zeroTimeTaskRun = .error .zeroTransitionTime ∧
    zeroTimeTaskRun.status.completionTime = none ∧
    zeroTimeTaskRun.status.getCondition ConditionSucceeded =
      some { condType := ConditionSucceeded, status := .conditionTrue,
             reason := "Succeeded", lastTransitionTime := 0 } :=
  ⟨rfl, rfl, rfl⟩

/-- C8 (amended): `GetCompletionTime` returns the status completion time
when set; otherwise, if the Succeeded condition exists with status other
than Unknown, it returns that condition's last-transition time when that
time is non-zero and an error when it is the zero time; otherwise (no such
condition, or its status is Unknown) it returns an error. -/
theorem getCompletionTime_cases (tr : TaskRun) :
    (∀ t, tr.status.completionTime = some t → GetCompletionTime tr = .ok t) ∧
    (tr.status.completionTime = none →
      ∀ c, tr.status.getCondition ConditionSucceeded = some c →
        c.status ≠ .conditionUnknown →
        GetCompletionTime tr =
          if c.lastTransitionTime = 0 then .error .zeroTransitionTime
          else .ok c.lastTransitionTime) ∧
    (tr.status.completionTime = none →
      tr.status.getCondition ConditionSucceeded = none →
      GetCompletionTime tr = .error .statusNotFound) ∧
    (tr.status.completionTime = none →
      ∀ c, tr.status.getCondition ConditionSucceeded = some c →
        c.status = .conditionUnknown →
        GetCompletionTime tr = .error .statusNotFound) := by
  refine ⟨?_, ?_, ?_, ?_⟩
  · intro t ht
    simp [GetCompletionTime, ht]
  · intro hnone c hc hstatus
    simp [GetCompletionTime, hnone, hc, hstatus]
  · intro hnone hc
    simp [GetCompletionTime, hnone, hc]
  · intro hnone c hc hstatus
    simp [GetCompletionTime, hnone, hc, hstatus]

/-- C8 witness: concrete instantiations of the completion-time branch and
the zero-transition-time branch. -/
theorem getCompletionTime_cases_witness :
    GetCompletionTime completedTaskRun = .ok 7 ∧
    GetCompletionTime zeroTimeTaskRun =
      (if (0 : Int) = 0 then .error .zeroTransitionTime else .ok 0) :=
  ⟨(getCompletionTime_cases completedTaskRun).1 7 rfl,
   (getCompletionTime_cases zeroTimeTaskRun).2.1 rfl
     { condType := ConditionSucceeded, status := .conditionTrue,
       reason := "Succeeded", lastTransitionTime := 0 }
     (by decide) (by decide)⟩

/-- C9: `safeRunGarbageCollector` does not serialize sweeps — its
`var gcMutex sync.Mutex` is local to each invocation, so a second trigger
arriving while a sweep holds its (fresh) mutex locks a different mutex and
proceeds instead of blocking behind the running sweep. -/
theorem concurrent_sweeps_not_serialized :
    safeRunGCMutexOf 0 ≠ safeRunGCMutexOf 1 ∧
    mutexLock [safeRunGCMutexOf 0] (safeRunGCMutexOf 1) =
      some [safeRunGCMutexOf 1, safeRunGCMutexOf 0] := by
  decide

/-- C10: for every TaskRun, `IsFailed` is exactly the negation of
`IsSuccessful`; `IsSuccessful` holds iff the Succeeded condition exists with
reason equal to the TaskRun successful reason; hence a TaskRun with no
Succeeded condition at all is classified as failed. -/
theorem isFailed_is_negation_of_isSuccessful (tr : TaskRun) :
    IsFailed tr = !IsSuccessful tr ∧
    (IsSuccessful tr = true ↔
      ∃ c, tr.status.getCondition ConditionSucceeded = some c ∧
        c.reason = TaskRunReasonSuccessful) ∧
    (tr.status.getCondition ConditionSucceeded = none → IsFailed tr = true) := by
  refine ⟨rfl, ?_, ?_⟩
  · unfold IsSuccessful
    cases hc : tr.status.getCondition ConditionSucceeded with
    | none => simp [hc]
    | some c => simp [beq_iff_eq]
  · intro hc
    simp [IsFailed, IsSuccessful, hc]

/-- C10 witness: a TaskRun with no conditions is classified as failed, via
the theorem's no-condition clause. -/
theorem isFailed_is_negation_of_isSuccessful_witness :
    IsFailed { ns := "ns1", name := "tr3" : TaskRun } = true :=
  (isFailed_is_negation_of_isSuccessful { ns := "ns1", name := "tr3" }).2.2 rfl

end TektonPruner
